import Mathlib

/-!
Shallow embedding of the token-ledger and access-gating backend
(`src/main.py`, `src/schemas.py`) of the creator content platform.

The MongoDB collections are modelled as lists of documents; `find_one`
is first-match lookup, `update_one` updates the first matching document,
`insert_one` appends.  Each HTTP handler becomes a function from the
store state to a pair of the post-state and a typed result, with
`HTTPException` raises modelled as error values returned together with
the state as it stood at the raise point.
-/

namespace CreatorPlatform

/-- Error kinds raised by the handlers (the `HTTPException`s of `main.py`). -/
inductive ApiError where
  | InvalidAmount
  | AccountNotFound
  | InsufficientBalance
  | ContentNotFound
  | SubscriptionRequired
  | PolicyViolation
  deriving DecidableEq, Repr

/-- Kind of a token transaction, `Literal["purchase","tip"]` in `schemas.py`. -/
inductive TxKind where
  | purchase
  | tip
  deriving DecidableEq, Repr

/-- A document of the `user` collection: the fields of `schemas.User`
relevant to the ledger, plus the Mongo `_id`. -/
structure UserDoc where
  id : String
  name : String
  email : String
  token_balance : Int
  is_creator : Bool
  deriving DecidableEq, Repr

/-- A document of the `tokentransaction` collection (`schemas.TokenTransaction`). -/
structure TokenTransaction where
  from_user_id : Option String
  to_user_id : Option String
  amount : Int
  kind : TxKind
  note : Option String
  post_id : Option String
  deriving DecidableEq, Repr

/-- A document of the `post` collection (`schemas.Post`), fields the
handlers consult; text is modelled as a list of characters. -/
structure PostDoc where
  id : String
  creator_id : String
  title : List Char
  body_text : Option (List Char)
  access_level_required : Int
  is_draft : Bool
  deriving DecidableEq, Repr

/-- A document of the `subscription` collection (`schemas.Subscription`). -/
structure SubscriptionDoc where
  user_id : String
  creator_id : String
  tier_id : String
  active : Bool
  deriving DecidableEq, Repr

/-- A document of the `comment` collection (`schemas.Comment`). -/
structure CommentDoc where
  post_id : String
  user_id : String
  text : String
  deriving DecidableEq, Repr

/-- The store of record: the collections the modelled handlers touch. -/
structure DB where
  users : List UserDoc
  posts : List PostDoc
  subscriptions : List SubscriptionDoc
  transactions : List TokenTransaction
  comments : List CommentDoc
  deriving DecidableEq, Repr

/-- `db["user"].find_one({"_id": {"$eq": uid}})`: first document with the id. -/
def findUser (users : List UserDoc) (uid : String) : Option UserDoc :=
  users.find? (fun u => u.id == uid)

/-- `update_one({"_id": uid}, {"$set": {"token_balance": b}})`:
set the balance of the first matching document. -/
def setBalance : List UserDoc → String → Int → List UserDoc
  | [], _, _ => []
  | u :: rest, uid, b =>
      if u.id == uid then { u with token_balance := b } :: rest
      else u :: setBalance rest uid b

/-- `update_one({"_id": uid}, {"$inc": {"token_balance": d}})`:
increment the balance of the first matching document. -/
def incBalance : List UserDoc → String → Int → List UserDoc
  | [], _, _ => []
  | u :: rest, uid, d =>
      if u.id == uid then { u with token_balance := u.token_balance + d } :: rest
      else u :: incBalance rest uid d

/-- The "creation-lite" guest document inserted by `purchase_tokens`
for an unknown user id. -/
def guestUser (uid : String) : UserDoc :=
  { id := uid, name := "Guest", email := "guest@example.com",
    token_balance := 0, is_creator := false }

/-- The ledger record appended by a successful purchase. -/
def purchaseRecord (amount : Int) : TokenTransaction :=
  { from_user_id := none, to_user_id := none, amount := amount,
    kind := .purchase, note := none, post_id := none }

/-- The ledger record appended by a successful tip. -/
def tipRecord (from_user_id to_user_id : String) (amount : Int)
    (post_id : Option String) : TokenTransaction :=
  { from_user_id := some from_user_id, to_user_id := some to_user_id,
    amount := amount, kind := .tip, note := none, post_id := post_id }

/-- Handler `POST /api/tokens/purchase` (`purchase_tokens` in `main.py`):
reject a non-positive amount, auto-provision an unknown user with
balance 0, set the balance to the read balance plus the amount, append a
purchase record, and return the new balance. -/
def purchase_tokens (s : DB) (user_id : String) (amount : Int) :
    DB × Except ApiError Int :=
  if amount ≤ 0 then (s, .error .InvalidAmount)
  else
    match findUser s.users user_id with
    | some user =>
        let new_balance := user.token_balance + amount
        ({ s with
             users := setBalance s.users user.id new_balance
             transactions := s.transactions ++ [purchaseRecord amount] },
         .ok new_balance)
    | none =>
        let users0 := s.users ++ [guestUser user_id]
        -- insert_one of the guest document, then the handler re-reads it;
        -- the lookup cannot miss since the id was just inserted
        let user := (findUser users0 user_id).getD (guestUser user_id)
        let new_balance := user.token_balance + amount
        ({ s with
             users := setBalance users0 user.id new_balance
             transactions := s.transactions ++ [purchaseRecord amount] },
         .ok new_balance)

/-- Handler `POST /api/tokens/tip` (`tip_creator` in `main.py`):
reject a non-positive amount, look up both users, check the sender's
balance, then decrement the sender, increment the receiver and append a
tip record. -/
def tip_creator (s : DB) (from_user_id to_user_id : String) (amount : Int)
    (post_id : Option String) : DB × Except ApiError Unit :=
  if amount ≤ 0 then (s, .error .InvalidAmount)
  else
    match findUser s.users from_user_id, findUser s.users to_user_id with
    | some from_user, some to_user =>
        if from_user.token_balance < amount then (s, .error .InsufficientBalance)
        else
          let users1 := incBalance s.users from_user.id (-amount)
          let users2 := incBalance users1 to_user.id amount
          ({ s with
               users := users2
               transactions := s.transactions ++
                 [tipRecord from_user_id to_user_id amount post_id] },
           .ok ())
    | _, _ => (s, .error .AccountNotFound)

/-- `db["post"].find_one({"_id": {"$eq": pid}})`. -/
def findPost (posts : List PostDoc) (pid : String) : Option PostDoc :=
  posts.find? (fun p => p.id == pid)

/-- `db["subscription"].find_one({"user_id": uid, "creator_id": cid, "active": True})`. -/
def findActiveSub (subs : List SubscriptionDoc) (uid creator_id : String) :
    Option SubscriptionDoc :=
  subs.find? (fun sub => sub.user_id == uid && sub.creator_id == creator_id && sub.active)

/-- Handler `POST /api/comments` (`add_comment` in `main.py`):
404 if the post is unknown, 403 without an active subscription to the
post's creator, otherwise store the comment. -/
def add_comment (s : DB) (c : CommentDoc) : DB × Except ApiError Unit :=
  match findPost s.posts c.post_id with
  | none => (s, .error .ContentNotFound)
  | some post =>
      match findActiveSub s.subscriptions c.user_id post.creator_id with
      | none => (s, .error .SubscriptionRequired)
      | some _ => ({ s with comments := s.comments ++ [c] }, .ok ())

/-- Handler `GET /api/creators/{creator_id}/posts` (`list_posts` in `main.py`):
the Mongo query `{"creator_id": cid, "is_draft": False,
"access_level_required": {"$lte": tier_level}}`. -/
def list_posts (s : DB) (creator_id : String) (tier_level : Int) : List PostDoc :=
  s.posts.filter (fun p =>
    p.creator_id == creator_id && p.is_draft == false &&
      decide (p.access_level_required ≤ tier_level))

/-- Modelled from the spec: the Access Gate pure decision function
`CanView(viewer_tier_level_or_none, content_required_level, is_draft)` of
section 4.2 is absent from `src/` (the repository only realizes it as the
query filter inside `list_posts`); per the spec it returns deny when
`is_draft` is true, else allow iff a tier level is present and at least
the content's required level. -/
def CanView (viewer_tier_level : Option Int) (content_required_level : Int)
    (is_draft : Bool) : Bool :=
  if is_draft then false
  else
    match viewer_tier_level with
    | none => false
    | some l => decide (content_required_level ≤ l)

/-- The blocked-keyword list `BLOCKED_KEYWORDS` of `main.py`. -/
def BLOCKED_KEYWORDS : List (List Char) :=
  ["nsfw".toList, "adult".toList, "explicit".toList, "18+".toList]

/-- Python `k == t[:len(k)]` flavour of matching: `k` begins `t`. -/
def hasPrefixCh : List Char → List Char → Bool
  | [], _ => true
  | _ :: _, [] => false
  | a :: ks, b :: ts => a == b && hasPrefixCh ks ts

/-- Python `k in t` on strings: `k` occurs contiguously inside `t`. -/
def hasSubCh : List Char → List Char → Bool
  | k, [] => k.isEmpty
  | k, c :: rest => hasPrefixCh k (c :: rest) || hasSubCh k rest

/-- `violates_policy` of `main.py`: false on an absent or empty text,
else true iff some blocked keyword occurs in the lowercased text. -/
def violates_policy (text : Option (List Char)) : Bool :=
  match text with
  | none => false
  | some t =>
      if t.isEmpty then false
      else
        let tl := t.map Char.toLower
        BLOCKED_KEYWORDS.any (fun k => hasSubCh k tl)

/-- Handler `POST /api/moderate/post` (`moderate_post` in `main.py`):
reject when the title or the body text violates the keyword policy,
otherwise store the post. -/
def moderate_post (s : DB) (post : PostDoc) : DB × Except ApiError Unit :=
  if violates_policy (some post.title) || violates_policy post.body_text then
    (s, .error .PolicyViolation)
  else
    ({ s with posts := s.posts ++ [post] }, .ok ())

/-- Balance of an account as read through `find_one`; 0 for a missing
account (the balance a purchase would provision it with). -/
def balanceOf (s : DB) (uid : String) : Int :=
  match findUser s.users uid with
  | some u => u.token_balance
  | none => 0

/-- Sum of the balances of a user list. -/
def sumBal : List UserDoc → Int
  | [] => 0
  | u :: rest => u.token_balance + sumBal rest

/-- Total of all account balances in the store. -/
def totalBalance (s : DB) : Int := sumBal s.users

/-- Every stored account balance is non-negative. -/
def NonNeg (s : DB) : Prop := ∀ u ∈ s.users, 0 ≤ u.token_balance

/-- A ledger operation issued against the Transfer Engine. -/
inductive Op where
  | purchase (user_id : String) (amount : Int)
  | tip (from_user_id to_user_id : String) (amount : Int) (post_id : Option String)
  deriving DecidableEq, Repr

/-- Run one operation to completion; a failing operation leaves the
store as the handler left it (unchanged, since every raise precedes any
mutation). -/
def runOp (s : DB) : Op → DB
  | .purchase uid a => (purchase_tokens s uid a).1
  | .tip f t a p => (tip_creator s f t a p).1

/-- Run a sequence of operations to completion, in order. -/
def runOps (s : DB) : List Op → DB
  | [] => s
  | op :: rest => runOps (runOp s op) rest

/-- The documents `tip_creator` has read after its two `find_one` calls:
a snapshot of both users, taken before any mutation. -/
structure TipCtx where
  from_user : UserDoc
  to_user : UserDoc
  deriving DecidableEq, Repr

/-- Read phase of `tip_creator`: the two `find_one` lookups, returning
the snapshot the rest of the handler works from (`none` when a user is
missing, i.e. the 404 path). -/
def tipReads (s : DB) (from_user_id to_user_id : String) : Option TipCtx :=
  match findUser s.users from_user_id, findUser s.users to_user_id with
  | some fu, some tu => some { from_user := fu, to_user := tu }
  | _, _ => none

/-- Check-and-write phase of `tip_creator`: the balance check against the
snapshot taken at read time, then the two `$inc` updates and the log
append against the store as it is NOW — exactly the code's structure,
with no lock held between the read and this phase. -/
def tipCommit (s : DB) (from_user_id to_user_id : String) (amount : Int)
    (post_id : Option String) (ctx : TipCtx) : DB × Except ApiError Unit :=
  if ctx.from_user.token_balance < amount then (s, .error .InsufficientBalance)
  else
    let users1 := incBalance s.users ctx.from_user.id (-amount)
    let users2 := incBalance users1 ctx.to_user.id amount
    ({ s with
         users := users2
         transactions := s.transactions ++
           [tipRecord from_user_id to_user_id amount post_id] },
     .ok ())

/-- A user document with only the ledger-relevant fields varying. -/
def mkUser (uid : String) (bal : Int) : UserDoc :=
  { id := uid, name := uid, email := "u@example.com",
    token_balance := bal, is_creator := false }

/-- Store for the §8.3 overdraft scenario: account A holds 10 tokens,
B and C hold none. -/
def raceS0 : DB :=
  { users := [mkUser "A" 10, mkUser "B" 0, mkUser "C" 0],
    posts := [], subscriptions := [], transactions := [], comments := [] }

/-- Snapshot taken by `Tip(A, B, 8)` reading `raceS0`. -/
def raceCtxB : TipCtx := { from_user := mkUser "A" 10, to_user := mkUser "B" 0 }

/-- Snapshot taken by `Tip(A, C, 8)` also reading `raceS0`, before the
first tip has written anything. -/
def raceCtxC : TipCtx := { from_user := mkUser "A" 10, to_user := mkUser "C" 0 }

/-- Store after the first tip commits against its snapshot. -/
def raceS1 : DB := (tipCommit raceS0 "A" "B" 8 none raceCtxB).1

/-- Store after the second tip commits against its stale snapshot. -/
def raceS2 : DB := (tipCommit raceS1 "A" "C" 8 none raceCtxC).1

/-- A demo post by creator "B". -/
def demoPost : PostDoc :=
  { id := "p1", creator_id := "B", title := "hi".toList, body_text := none,
    access_level_required := 1, is_draft := false }

/-- An active subscription of user "A" to creator "B". -/
def demoSub : SubscriptionDoc :=
  { user_id := "A", creator_id := "B", tier_id := "t1", active := true }

/-- A small populated store used by the concrete witnesses. -/
def demoDB : DB :=
  { users := [mkUser "A" 10, mkUser "B" 0, mkUser "C" 0],
    posts := [demoPost], subscriptions := [demoSub],
    transactions := [], comments := [] }

/-- A post whose title trips the keyword filter. -/
def badPost : PostDoc :=
  { id := "p2", creator_id := "B", title := "my nsfw pic".toList,
    body_text := none, access_level_required := 1, is_draft := false }

/-- A post that passes the keyword filter. -/
def goodPost : PostDoc :=
  { id := "p3", creator_id := "B", title := "travel blog".toList,
    body_text := some "hello world".toList, access_level_required := 1,
    is_draft := false }

theorem find?_append_none {α : Type} {l1 l2 : List α} {p : α → Bool}
    (h : l1.find? p = none) : (l1 ++ l2).find? p = l2.find? p := by
  induction l1 with
  | nil => simp
  | cons a rest ih =>
    by_cases hp : p a = true
    · rw [List.find?_cons_of_pos _ hp] at h; cases h
    · rw [List.find?_cons_of_neg _ hp] at h
      rw [List.cons_append, List.find?_cons_of_neg _ hp]
      exact ih h

theorem mem_setBalance {x : UserDoc} :
    ∀ {l : List UserDoc} {uid : String} {b : Int},
      x ∈ setBalance l uid b → x ∈ l ∨ x.token_balance = b := by
  intro l
  induction l with
  | nil => intro uid b h; simp [setBalance] at h
  | cons u rest ih =>
    intro uid b h
    by_cases hc : (u.id == uid) = true
    · simp only [setBalance, if_pos hc] at h
      rcases List.mem_cons.mp h with h1 | h2
      · exact Or.inr (by rw [h1])
      · exact Or.inl (List.mem_cons_of_mem _ h2)
    · simp only [setBalance, if_neg hc] at h
      rcases List.mem_cons.mp h with h1 | h2
      · exact Or.inl (h1 ▸ List.mem_cons_self _ _)
      · rcases ih h2 with h3 | h3
        · exact Or.inl (List.mem_cons_of_mem _ h3)
        · exact Or.inr h3

theorem mem_incBalance {x : UserDoc} :
    ∀ {l : List UserDoc} {uid : String} {d : Int},
      x ∈ incBalance l uid d →
      x ∈ l ∨ ∃ u, l.find? (fun v => v.id == uid) = some u ∧
        x = { u with token_balance := u.token_balance + d } := by
  intro l
  induction l with
  | nil => intro uid d h; simp [incBalance] at h
  | cons u rest ih =>
    intro uid d h
    by_cases hc : (u.id == uid) = true
    · simp only [incBalance, if_pos hc] at h
      rcases List.mem_cons.mp h with h1 | h2
      · exact Or.inr ⟨u, List.find?_cons_of_pos _ hc, h1⟩
      · exact Or.inl (List.mem_cons_of_mem _ h2)
    · simp only [incBalance, if_neg hc] at h
      rcases List.mem_cons.mp h with h1 | h2
      · exact Or.inl (h1 ▸ List.mem_cons_self _ _)
      · rcases ih h2 with h3 | ⟨w, hw1, hw2⟩
        · exact Or.inl (List.mem_cons_of_mem _ h3)
        · refine Or.inr ⟨w, ?_, hw2⟩
          have hc' : (u.id == uid) = false := by simpa using hc
          simp only [List.find?_cons, hc']
          exact hw1

theorem find?_isSome_incBalance :
    ∀ {l : List UserDoc} {uid t : String} {d : Int},
      ((incBalance l uid d).find? (fun v => v.id == t)).isSome
        = (l.find? (fun v => v.id == t)).isSome := by
  intro l
  induction l with
  | nil => intro uid t d; simp [incBalance]
  | cons u rest ih =>
    intro uid t d
    cases hc : (u.id == uid) <;> cases ht : (u.id == t) <;>
      simp [incBalance, List.find?_cons, hc, ht, ih]

theorem find?_setBalance_some {u : UserDoc} :
    ∀ {l : List UserDoc} {uid : String} {b : Int},
      l.find? (fun v => v.id == uid) = some u →
      (setBalance l uid b).find? (fun v => v.id == uid) =
        some { u with token_balance := b } := by
  intro l
  induction l with
  | nil => intro uid b h; simp at h
  | cons w rest ih =>
    intro uid b h
    cases hc : (w.id == uid)
    case false =>
      simp only [List.find?_cons, hc] at h
      simp only [setBalance, hc, Bool.false_eq_true, if_false, List.find?_cons]
      exact ih h
    case true =>
      simp only [List.find?_cons, hc] at h
      injection h with h'
      subst h'
      simp [setBalance, hc, List.find?_cons]

theorem sumBal_append (l1 l2 : List UserDoc) :
    sumBal (l1 ++ l2) = sumBal l1 + sumBal l2 := by
  induction l1 with
  | nil => simp [sumBal]
  | cons u rest ih =>
    show sumBal (u :: (rest ++ l2)) = sumBal (u :: rest) + sumBal l2
    simp only [sumBal, ih]
    omega

theorem sumBal_setBalance {u : UserDoc} :
    ∀ {l : List UserDoc} {uid : String} {b : Int},
      l.find? (fun v => v.id == uid) = some u →
      sumBal (setBalance l uid b) = sumBal l - u.token_balance + b := by
  intro l
  induction l with
  | nil => intro uid b h; simp at h
  | cons w rest ih =>
    intro uid b h
    cases hc : (w.id == uid)
    case true =>
      simp only [List.find?_cons, hc] at h
      injection h with h'
      subst h'
      simp only [setBalance, hc, if_true, sumBal]
      omega
    case false =>
      simp only [List.find?_cons, hc] at h
      simp only [setBalance, hc, Bool.false_eq_true, if_false, sumBal, ih h]
      omega

theorem sumBal_incBalance :
    ∀ {l : List UserDoc} {uid : String} {d : Int},
      (l.find? (fun v => v.id == uid)).isSome = true →
      sumBal (incBalance l uid d) = sumBal l + d := by
  intro l
  induction l with
  | nil => intro uid d h; simp at h
  | cons w rest ih =>
    intro uid d h
    cases hc : (w.id == uid)
    case true =>
      simp only [incBalance, hc, if_true, sumBal]
      omega
    case false =>
      simp only [List.find?_cons, hc] at h
      simp only [incBalance, hc, Bool.false_eq_true, if_false, sumBal, ih h]
      omega

theorem incBalance_incBalance (l : List UserDoc) (uid : String) (d e : Int) :
    incBalance (incBalance l uid d) uid e = incBalance l uid (d + e) := by
  induction l with
  | nil => rfl
  | cons u rest ih =>
    by_cases hc : (u.id == uid) = true
    · simp [incBalance, hc, Int.add_assoc]
    · simp [incBalance, hc, ih]

theorem incBalance_zero (l : List UserDoc) (uid : String) :
    incBalance l uid 0 = l := by
  induction l with
  | nil => rfl
  | cons u rest ih =>
    by_cases hc : (u.id == uid) = true
    · simp [incBalance, hc]
    · simp [incBalance, hc, ih]

theorem findUser_id {l : List UserDoc} {uid : String} {u : UserDoc}
    (h : findUser l uid = some u) : u.id = uid := by
  have h2 := @List.find?_some UserDoc (fun v => v.id == uid) u l h
  exact eq_of_beq h2

theorem findUser_mem {l : List UserDoc} {uid : String} {u : UserDoc}
    (h : findUser l uid = some u) : u ∈ l :=
  List.mem_of_find?_eq_some h

theorem findUser_append_guest {l : List UserDoc} {uid : String}
    (h : findUser l uid = none) :
    findUser (l ++ [guestUser uid]) uid = some (guestUser uid) := by
  unfold findUser at h ⊢
  rw [find?_append_none h]
  simp [guestUser]

theorem purchase_invalid {s : DB} {uid : String} {a : Int} (h : a ≤ 0) :
    purchase_tokens s uid a = (s, .error .InvalidAmount) := by
  simp [purchase_tokens, h]

theorem purchase_found {s : DB} {uid : String} {a : Int} {u : UserDoc}
    (h0 : ¬ a ≤ 0) (hu : findUser s.users uid = some u) :
    purchase_tokens s uid a =
      ({ s with
           users := setBalance s.users u.id (u.token_balance + a)
           transactions := s.transactions ++ [purchaseRecord a] },
       .ok (u.token_balance + a)) := by
  simp [purchase_tokens, h0, hu]

theorem purchase_fresh {s : DB} {uid : String} {a : Int}
    (h0 : ¬ a ≤ 0) (hu : findUser s.users uid = none) :
    purchase_tokens s uid a =
      ({ s with
           users := setBalance (s.users ++ [guestUser uid]) uid (0 + a)
           transactions := s.transactions ++ [purchaseRecord a] },
       .ok (0 + a)) := by
  have hfind := findUser_append_guest hu
  simp only [purchase_tokens, hu]
  rw [if_neg h0]
  simp only [hfind, Option.getD_some]
  simp [guestUser]

theorem tip_invalid {s : DB} {f t : String} {a : Int} {p : Option String}
    (h : a ≤ 0) : tip_creator s f t a p = (s, .error .InvalidAmount) := by
  simp [tip_creator, h]

theorem tip_cases (s : DB) (f t : String) (a : Int) (p : Option String) :
    (a ≤ 0 ∧ tip_creator s f t a p = (s, .error .InvalidAmount)) ∨
    (¬ a ≤ 0 ∧ (findUser s.users f = none ∨ findUser s.users t = none) ∧
      tip_creator s f t a p = (s, .error .AccountNotFound)) ∨
    (∃ fu tu, ¬ a ≤ 0 ∧ findUser s.users f = some fu ∧
      findUser s.users t = some tu ∧ fu.token_balance < a ∧
      tip_creator s f t a p = (s, .error .InsufficientBalance)) ∨
    (∃ fu tu, ¬ a ≤ 0 ∧ findUser s.users f = some fu ∧
      findUser s.users t = some tu ∧ ¬ fu.token_balance < a ∧
      tip_creator s f t a p =
        ({ s with
             users := incBalance (incBalance s.users fu.id (-a)) tu.id a
             transactions := s.transactions ++ [tipRecord f t a p] },
         .ok ())) := by
  by_cases h0 : a ≤ 0
  · exact Or.inl ⟨h0, tip_invalid h0⟩
  · cases hf : findUser s.users f with
    | none =>
      exact Or.inr (Or.inl ⟨h0, Or.inl rfl, by simp [tip_creator, h0, hf]⟩)
    | some fu =>
      cases ht : findUser s.users t with
      | none =>
        exact Or.inr (Or.inl ⟨h0, Or.inr rfl, by simp [tip_creator, h0, hf, ht]⟩)
      | some tu =>
        by_cases hb : fu.token_balance < a
        · exact Or.inr (Or.inr (Or.inl ⟨fu, tu, h0, rfl, rfl, hb,
            by simp [tip_creator, h0, hf, ht, hb]⟩))
        · exact Or.inr (Or.inr (Or.inr ⟨fu, tu, h0, rfl, rfl, hb,
            by simp [tip_creator, h0, hf, ht, hb]⟩))

theorem tip_fst_of_error {s : DB} {f t : String} {a : Int} {p : Option String}
    {e : ApiError} (h : (tip_creator s f t a p).2 = .error e) :
    (tip_creator s f t a p).1 = s := by
  rcases tip_cases s f t a p with ⟨-, h1⟩ | ⟨-, -, h1⟩ | ⟨fu, tu, -, -, -, -, h1⟩ |
    ⟨fu, tu, -, -, -, -, h1⟩
  · rw [h1]
  · rw [h1]
  · rw [h1]
  · rw [h1] at h
    simp at h

theorem totalBalance_tip_ok {s s2 : DB} {f t : String} {a : Int} {p : Option String}
    (h : tip_creator s f t a p = (s2, .ok ())) : totalBalance s2 = totalBalance s := by
  rcases tip_cases s f t a p with ⟨-, h1⟩ | ⟨-, -, h1⟩ | ⟨fu, tu, -, -, -, -, h1⟩ |
    ⟨fu, tu, h0, hf, ht, hb, h1⟩
  · rw [h1] at h; simp at h
  · rw [h1] at h; simp at h
  · rw [h1] at h; simp at h
  · rw [h1] at h
    have h2 := congrArg Prod.fst h
    simp only [] at h2
    have hf' : s.users.find? (fun v => v.id == f) = some fu := hf
    have ht' : s.users.find? (fun v => v.id == t) = some tu := ht
    have e1 : sumBal (incBalance s.users fu.id (-a)) = sumBal s.users + (-a) := by
      refine sumBal_incBalance ?_
      rw [findUser_id hf, hf']
      rfl
    have e2 : sumBal (incBalance (incBalance s.users fu.id (-a)) tu.id a)
        = sumBal (incBalance s.users fu.id (-a)) + a := by
      refine sumBal_incBalance ?_
      rw [findUser_id ht, find?_isSome_incBalance, ht']
      rfl
    rw [← h2]
    show sumBal (incBalance (incBalance s.users fu.id (-a)) tu.id a) = totalBalance s
    rw [e2, e1]
    show sumBal s.users + -a + a = sumBal s.users
    omega

theorem totalBalance_tip_fst (s : DB) (f t : String) (a : Int) (p : Option String) :
    totalBalance (tip_creator s f t a p).1 = totalBalance s := by
  cases hres : tip_creator s f t a p with
  | mk s2 r =>
    cases r with
    | ok u =>
      cases u
      exact totalBalance_tip_ok hres
    | error e =>
      have h1 : (tip_creator s f t a p).1 = s :=
        @tip_fst_of_error s f t a p e (by rw [hres])
      rw [hres] at h1
      rw [h1]

theorem purchase_ok_facts {s : DB} {uid : String} {a : Int} (h0 : ¬ a ≤ 0) :
    (purchase_tokens s uid a).2 = .ok (balanceOf s uid + a) ∧
    balanceOf (purchase_tokens s uid a).1 uid = balanceOf s uid + a ∧
    (purchase_tokens s uid a).1.transactions = s.transactions ++ [purchaseRecord a] ∧
    (findUser (purchase_tokens s uid a).1.users uid).isSome = true ∧
    totalBalance (purchase_tokens s uid a).1 = totalBalance s + a := by
  cases hu : findUser s.users uid with
  | some u =>
    have hu' : s.users.find? (fun v => v.id == uid) = some u := hu
    have hbal : balanceOf s uid = u.token_balance := by simp [balanceOf, hu]
    have hfind2 : (setBalance s.users uid (u.token_balance + a)).find?
        (fun v => v.id == uid) = some { u with token_balance := u.token_balance + a } :=
      find?_setBalance_some hu'
    rw [purchase_found h0 hu, findUser_id hu, hbal]
    refine ⟨rfl, ?_, rfl, ?_, ?_⟩
    · simp [balanceOf, findUser, hfind2]
    · simp [findUser, hfind2]
    · show sumBal (setBalance s.users uid (u.token_balance + a)) = sumBal s.users + a
      rw [sumBal_setBalance hu']
      omega
  | none =>
    have hbal : balanceOf s uid = 0 := by simp [balanceOf, hu]
    have hga' : (s.users ++ [guestUser uid]).find? (fun v => v.id == uid)
        = some (guestUser uid) := findUser_append_guest hu
    have hfind2 : (setBalance (s.users ++ [guestUser uid]) uid (0 + a)).find?
        (fun v => v.id == uid) = some { guestUser uid with token_balance := 0 + a } :=
      find?_setBalance_some hga'
    rw [purchase_fresh h0 hu, hbal]
    refine ⟨rfl, ?_, rfl, ?_, ?_⟩
    · simp only [balanceOf, findUser, hfind2]
    · simp only [findUser, hfind2, Option.isSome_some]
    · show sumBal (setBalance (s.users ++ [guestUser uid]) uid (0 + a))
        = sumBal s.users + a
      rw [sumBal_setBalance hga', sumBal_append]
      simp only [guestUser, sumBal]
      omega

theorem nonNeg_purchase {s : DB} {uid : String} {a : Int} (h : NonNeg s) :
    NonNeg (purchase_tokens s uid a).1 := by
  by_cases h0 : a ≤ 0
  · rw [purchase_invalid h0]; exact h
  · cases hu : findUser s.users uid with
    | some u =>
      rw [purchase_found h0 hu]
      intro x hx
      rcases mem_setBalance hx with hx1 | hx2
      · exact h x hx1
      · have hub : 0 ≤ u.token_balance := h u (findUser_mem hu)
        omega
    | none =>
      rw [purchase_fresh h0 hu]
      intro x hx
      rcases mem_setBalance hx with hx1 | hx2
      · rcases List.mem_append.mp hx1 with hx3 | hx3
        · exact h x hx3
        · have hx4 : x = guestUser uid := List.mem_singleton.mp hx3
          rw [hx4]
          show (0 : Int) ≤ 0
          omega
      · omega

theorem nonNeg_tip {s : DB} {f t : String} {a : Int} {p : Option String}
    (h : NonNeg s) : NonNeg (tip_creator s f t a p).1 := by
  rcases tip_cases s f t a p with ⟨-, h1⟩ | ⟨-, -, h1⟩ | ⟨fu, tu, -, -, -, -, h1⟩ |
    ⟨fu, tu, h0, hf, ht, hb, h1⟩
  · rw [h1]; exact h
  · rw [h1]; exact h
  · rw [h1]; exact h
  · rw [h1, findUser_id hf, findUser_id ht]
    have hf' : s.users.find? (fun v => v.id == f) = some fu := hf
    have hU1 : ∀ x ∈ incBalance s.users f (-a), 0 ≤ x.token_balance := by
      intro x hx
      rcases mem_incBalance hx with hx1 | ⟨w, hw1, hw2⟩
      · exact h x hx1
      · have hwfu : w = fu := by
          rw [hf'] at hw1
          injection hw1 with h3
          exact h3.symm
        rw [hw2, hwfu]
        show 0 ≤ fu.token_balance + (-a)
        omega
    intro x hx
    rcases mem_incBalance hx with hx1 | ⟨w, hw1, hw2⟩
    · exact hU1 x hx1
    · have hwmem : w ∈ incBalance s.users f (-a) := List.mem_of_find?_eq_some hw1
      have hw0 : 0 ≤ w.token_balance := hU1 w hwmem
      rw [hw2]
      show 0 ≤ w.token_balance + a
      omega

theorem nonNeg_runOp {s : DB} (op : Op) (h : NonNeg s) : NonNeg (runOp s op) := by
  cases op with
  | purchase uid a => exact nonNeg_purchase h
  | tip f t a p => exact nonNeg_tip h

theorem nonNeg_runOps {s : DB} (ops : List Op) (h : NonNeg s) :
    NonNeg (runOps s ops) := by
  induction ops generalizing s with
  | nil => exact h
  | cons op rest ih => exact ih (nonNeg_runOp op h)

theorem totalBalance_runOps_tips (s : DB) (ops : List Op)
    (h : ∀ op ∈ ops, ∃ f t a p, op = Op.tip f t a p) :
    totalBalance (runOps s ops) = totalBalance s := by
  induction ops generalizing s with
  | nil => rfl
  | cons op rest ih =>
    obtain ⟨f, t, a, p, rfl⟩ := h op (List.mem_cons_self _ _)
    show totalBalance (runOps (runOp s (Op.tip f t a p)) rest) = totalBalance s
    rw [ih _ (fun o ho => h o (List.mem_cons_of_mem _ ho))]
    exact totalBalance_tip_fst s f t a p

theorem hasPrefixCh_iff : ∀ (k t : List Char), hasPrefixCh k t = true ↔ k <+: t := by
  intro k
  induction k with
  | nil => intro t; simp [hasPrefixCh]
  | cons a ks ih =>
    intro t
    cases t with
    | nil => simp [hasPrefixCh]
    | cons b ts => simp [hasPrefixCh, ih]

theorem hasSubCh_iff : ∀ (k t : List Char), hasSubCh k t = true ↔ k <:+: t := by
  intro k t
  induction t with
  | nil =>
    cases k with
    | nil => simp [hasSubCh]
    | cons a ks =>
      simp only [hasSubCh, List.isEmpty_cons]
      constructor
      · intro h; cases h
      · rintro ⟨s1, s2, hr⟩
        exfalso
        cases s1 <;> simp at hr
  | cons c ts ih =>
    simp only [hasSubCh, Bool.or_eq_true, hasPrefixCh_iff, ih]
    constructor
    · rintro (⟨r, hr⟩ | ⟨s1, s2, hr⟩)
      · exact ⟨[], r, by simpa using hr⟩
      · exact ⟨c :: s1, s2, by rw [← hr]; rfl⟩
    · rintro ⟨s1, s2, hr⟩
      cases s1 with
      | nil => exact Or.inl ⟨s2, by simpa using hr⟩
      | cons d s1t =>
        right
        simp only [List.cons_append] at hr
        injection hr with h1 h2
        exact ⟨s1t, s2, h2⟩

theorem violates_policy_iff (t : List Char) :
    violates_policy (some t) = true ↔
      ∃ k ∈ BLOCKED_KEYWORDS, k <:+: t.map Char.toLower := by
  cases t with
  | nil =>
    constructor
    · intro h
      simp [violates_policy] at h
    · rintro ⟨k, hk, s1, s2, hr⟩
      rw [List.map_nil] at hr
      have hk2 : k = [] := by
        cases k with
        | nil => rfl
        | cons a ks =>
          exfalso
          cases s1 <;> simp at hr
      subst hk2
      exact absurd hk (by decide)
  | cons c ts =>
    simp [violates_policy, hasSubCh_iff]

theorem moderate_reject {s : DB} {post : PostDoc}
    (h : (violates_policy (some post.title) || violates_policy post.body_text) = true) :
    moderate_post s post = (s, .error .PolicyViolation) := by
  simp [moderate_post, h]

theorem moderate_accept {s : DB} {post : PostDoc}
    (h : (violates_policy (some post.title) || violates_policy post.body_text) = false) :
    moderate_post s post = ({ s with posts := s.posts ++ [post] }, .ok ()) := by
  simp [moderate_post, h]

theorem tip_creator_phased (s : DB) (f t : String) (a : Int) (p : Option String) :
    tip_creator s f t a p =
      if a ≤ 0 then (s, .error .InvalidAmount)
      else
        match tipReads s f t with
        | none => (s, .error .AccountNotFound)
        | some ctx => tipCommit s f t a p ctx := by
  by_cases h0 : a ≤ 0
  · simp [tip_creator, tipReads, tipCommit, h0]
  · cases hf : findUser s.users f <;> cases ht : findUser s.users t <;>
      simp [tip_creator, tipReads, tipCommit, h0, hf, ht]

theorem tip_self_ok {s : DB} {uid : String} {n : Int} {p : Option String} {fu : UserDoc}
    (h1 : 1 ≤ n) (hfu : findUser s.users uid = some fu)
    (hbal : n ≤ fu.token_balance) :
    tip_creator s uid uid n p =
      ({ s with transactions := s.transactions ++ [tipRecord uid uid n p] },
       .ok ()) := by
  have h0 : ¬ n ≤ 0 := by omega
  have hnb : ¬ fu.token_balance < n := by omega
  simp [tip_creator, hfu, h0, hnb, incBalance_incBalance, incBalance_zero]

/-- C1: `tip_creator` fails with `InvalidAmount` on a non-positive amount,
with `AccountNotFound` when either account is missing (amount positive),
with `InsufficientBalance` when the sender's balance is below the amount,
and every failure leaves all account balances unchanged. -/
theorem tip_failure_spec (s : DB) (f t : String) (a : Int) (p : Option String) :
    (a ≤ 0 → tip_creator s f t a p = (s, .error .InvalidAmount)) ∧
    (0 < a → (findUser s.users f = none ∨ findUser s.users t = none) →
      tip_creator s f t a p = (s, .error .AccountNotFound)) ∧
    (∀ fu tu, 0 < a → findUser s.users f = some fu →
      findUser s.users t = some tu → fu.token_balance < a →
      tip_creator s f t a p = (s, .error .InsufficientBalance)) ∧
    (∀ s2 e, tip_creator s f t a p = (s2, .error e) → s2.users = s.users) := by
  refine ⟨fun h0 => tip_invalid h0, ?_, ?_, ?_⟩
  · intro h0 hmiss
    have h0' : ¬ a ≤ 0 := by omega
    rcases hmiss with hf | ht
    · cases ht2 : findUser s.users t <;> simp [tip_creator, h0', hf, ht2]
    · cases hf2 : findUser s.users f <;> simp [tip_creator, h0', hf2, ht]
  · intro fu tu h0 hf ht hb
    have h0' : ¬ a ≤ 0 := by omega
    simp [tip_creator, h0', hf, ht, hb]
  · intro s2 e h
    have h2 : (tip_creator s f t a p).1 = s :=
      @tip_fst_of_error s f t a p e (by rw [h])
    rw [h] at h2
    exact congrArg DB.users h2

/-- C1 witness: the three failure modes on the demo store. -/
theorem tip_failure_spec_witness :
    tip_creator demoDB "A" "B" 0 none = (demoDB, .error .InvalidAmount) ∧
    tip_creator demoDB "Z" "B" 5 none = (demoDB, .error .AccountNotFound) ∧
    tip_creator demoDB "A" "B" 99 none = (demoDB, .error .InsufficientBalance) :=
  ⟨(tip_failure_spec demoDB "A" "B" 0 none).1 (by decide),
   (tip_failure_spec demoDB "Z" "B" 5 none).2.1 (by decide) (Or.inl (by decide)),
   (tip_failure_spec demoDB "A" "B" 99 none).2.2.1 (mkUser "A" 10) (mkUser "B" 0)
     (by decide) (by decide) (by decide) (by decide)⟩

/-- C2: conservation law: a successful tip leaves the total of all
balances unchanged, a successful purchase raises it by exactly the
amount, and a sequence of tip operations leaves it invariant. -/
theorem conservation_law :
    (∀ (s s2 : DB) (f t : String) (a : Int) (p : Option String),
      tip_creator s f t a p = (s2, .ok ()) → totalBalance s2 = totalBalance s) ∧
    (∀ (s s2 : DB) (uid : String) (a b : Int),
      purchase_tokens s uid a = (s2, .ok b) →
      totalBalance s2 = totalBalance s + a) ∧
    (∀ (s : DB) (ops : List Op),
      (∀ op ∈ ops, ∃ f t a p, op = Op.tip f t a p) →
      totalBalance (runOps s ops) = totalBalance s) := by
  refine ⟨fun s s2 f t a p h => totalBalance_tip_ok h, ?_,
    totalBalance_runOps_tips⟩
  intro s s2 uid a b h
  by_cases h0 : a ≤ 0
  · rw [purchase_invalid h0] at h
    simp at h
  · have hfacts := @purchase_ok_facts s uid a h0
    calc totalBalance s2 = totalBalance (purchase_tokens s uid a).1 := by rw [h]
    _ = totalBalance s + a := hfacts.2.2.2.2

/-- C2 witness: concrete conservation checks on the demo store. -/
theorem conservation_law_witness :
    totalBalance (tip_creator demoDB "A" "B" 3 none).1 = totalBalance demoDB ∧
    totalBalance (purchase_tokens demoDB "A" 7).1 = totalBalance demoDB + 7 ∧
    totalBalance (runOps demoDB [Op.tip "A" "B" 2 none, Op.tip "B" "C" 1 none])
      = totalBalance demoDB :=
  ⟨conservation_law.1 demoDB _ "A" "B" 3 none rfl,
   conservation_law.2.1 demoDB _ "A" 7 17 rfl,
   conservation_law.2.2 demoDB [Op.tip "A" "B" 2 none, Op.tip "B" "C" 1 none]
     (by
       intro op hop
       rcases List.mem_cons.mp hop with rfl | hop2
       · exact ⟨"A", "B", 2, none, rfl⟩
       · rcases List.mem_cons.mp hop2 with rfl | hop3
         · exact ⟨"B", "C", 1, none, rfl⟩
         · cases hop3)⟩

/-- C3: starting from non-negative balances, no sequence of purchase and
tip operations run to completion produces a negative balance. -/
theorem non_negativity (s : DB) (ops : List Op) (h : NonNeg s) :
    NonNeg (runOps s ops) :=
  nonNeg_runOps ops h

/-- C3 witness: a concrete mixed sequence keeps all balances non-negative. -/
theorem non_negativity_witness :
    NonNeg (runOps demoDB [Op.purchase "D" 5, Op.tip "A" "B" 4 none,
      Op.tip "D" "A" 5 none, Op.tip "A" "C" 100 none]) :=
  non_negativity demoDB
    [Op.purchase "D" 5, Op.tip "A" "B" 4 none,
      Op.tip "D" "A" 5 none, Op.tip "A" "C" 100 none]
    (by
      show ∀ u ∈ demoDB.users, (0 : Int) ≤ u.token_balance
      decide)

/-- C4: purchase with a positive amount provisions a missing account at
balance 0, raises the balance by exactly the amount and returns the new
balance; a non-positive amount fails with `InvalidAmount` and changes
nothing. -/
theorem purchase_spec (s : DB) (uid : String) (a : Int) :
    (a ≤ 0 → purchase_tokens s uid a = (s, .error .InvalidAmount)) ∧
    (0 < a →
      (purchase_tokens s uid a).2 = .ok (balanceOf s uid + a) ∧
      balanceOf (purchase_tokens s uid a).1 uid = balanceOf s uid + a ∧
      (findUser (purchase_tokens s uid a).1.users uid).isSome = true) := by
  refine ⟨fun h => purchase_invalid h, fun h0 => ?_⟩
  have hf := @purchase_ok_facts s uid a (by omega)
  exact ⟨hf.1, hf.2.1, hf.2.2.2.1⟩

/-- C4 witness: purchase by an unknown account id on the demo store. -/
theorem purchase_spec_witness :
    purchase_tokens demoDB "Z" 0 = (demoDB, .error .InvalidAmount) ∧
    (purchase_tokens demoDB "Z" 5).2 = .ok (balanceOf demoDB "Z" + 5) ∧
    balanceOf (purchase_tokens demoDB "Z" 5).1 "Z" = balanceOf demoDB "Z" + 5 ∧
    (findUser (purchase_tokens demoDB "Z" 5).1.users "Z").isSome = true :=
  ⟨(purchase_spec demoDB "Z" 0).1 (by decide),
   (purchase_spec demoDB "Z" 5).2 (by decide)⟩

/-- C5: the access gate denies drafts regardless of tier, allows exactly
when a tier level is present and at least the required level (so an
absent tier level is denied even for required level 1), and the post
listing returns exactly the creator's non-draft posts with required
level at most the viewer's tier level. -/
theorem access_gate_spec :
    (∀ (vt : Option Int) (req : Int), CanView vt req true = false) ∧
    (∀ (vt : Option Int) (req : Int),
      (CanView vt req false = true ↔ ∃ l, vt = some l ∧ req ≤ l)) ∧
    CanView none 1 false = false ∧
    (∀ (s : DB) (cid : String) (lvl : Int) (q : PostDoc),
      q ∈ list_posts s cid lvl ↔
        q ∈ s.posts ∧ q.creator_id = cid ∧ q.is_draft = false ∧
          q.access_level_required ≤ lvl) := by
  refine ⟨fun vt req => rfl, ?_, rfl, ?_⟩
  · intro vt req
    cases vt with
    | none => simp [CanView]
    | some l => simp [CanView]
  · intro s cid lvl q
    simp [list_posts, List.mem_filter, and_assoc]

/-- C5 witness: the spec's boundary cases and the demo listing. -/
theorem access_gate_spec_witness :
    CanView (some 3) 3 false = true ∧
    CanView none 1 false = false ∧
    (demoPost ∈ list_posts demoDB "B" 1 ↔
      demoPost ∈ demoDB.posts ∧ demoPost.creator_id = "B" ∧
        demoPost.is_draft = false ∧ demoPost.access_level_required ≤ 1) :=
  ⟨(access_gate_spec.2.1 (some 3) 3).mpr ⟨3, rfl, by omega⟩,
   access_gate_spec.2.2.1,
   access_gate_spec.2.2.2 demoDB "B" 1 demoPost⟩

/-- C6: commenting fails with `ContentNotFound` on an unknown post, with
`SubscriptionRequired` (storing nothing) when no active subscription to
the post's creator exists, and stores the comment exactly when one
does. -/
theorem comment_gating_spec (s : DB) (c : CommentDoc) :
    (findPost s.posts c.post_id = none →
      add_comment s c = (s, .error .ContentNotFound)) ∧
    (∀ post, findPost s.posts c.post_id = some post →
      (findActiveSub s.subscriptions c.user_id post.creator_id = none →
        add_comment s c = (s, .error .SubscriptionRequired)) ∧
      (∀ sub, findActiveSub s.subscriptions c.user_id post.creator_id = some sub →
        add_comment s c =
          ({ s with comments := s.comments ++ [c] }, .ok ()))) := by
  refine ⟨fun h => by simp [add_comment, h], ?_⟩
  intro post hp
  exact ⟨fun h => by simp [add_comment, hp, h],
    fun sub h => by simp [add_comment, hp, h]⟩

/-- C6 witness: subscriber comments, non-subscriber and unknown post fail. -/
theorem comment_gating_spec_witness :
    add_comment demoDB { post_id := "p1", user_id := "A", text := "nice" } =
      ({ demoDB with comments := demoDB.comments ++
          [{ post_id := "p1", user_id := "A", text := "nice" }] }, .ok ()) ∧
    add_comment demoDB { post_id := "p1", user_id := "C", text := "hey" } =
      (demoDB, .error .SubscriptionRequired) ∧
    add_comment demoDB { post_id := "nope", user_id := "A", text := "x" } =
      (demoDB, .error .ContentNotFound) :=
  ⟨((comment_gating_spec demoDB
      { post_id := "p1", user_id := "A", text := "nice" }).2 demoPost
        (by decide)).2 demoSub (by decide),
   ((comment_gating_spec demoDB
      { post_id := "p1", user_id := "C", text := "hey" }).2 demoPost
        (by decide)).1 (by decide),
   (comment_gating_spec demoDB
      { post_id := "nope", user_id := "A", text := "x" }).1 (by decide)⟩

/-- C7: the handler is NOT atomic: its read phase and its check-commit
phase are separate store accesses (the decomposition below is exactly
`tip_creator`), and interleaving two tips from account A (balance 10) of
8 tokens each so that both reads precede either commit makes BOTH pass
the balance check and succeed, leaving A at -6 — not one success, one
`InsufficientBalance` failure and a final balance of 2 as the
specification requires. -/
theorem tip_race_overdraft :
    (∀ (s : DB) (f t : String) (a : Int) (p : Option String),
      tip_creator s f t a p =
        if a ≤ 0 then (s, .error .InvalidAmount)
        else
          match tipReads s f t with
          | none => (s, .error .AccountNotFound)
          | some ctx => tipCommit s f t a p ctx) ∧
    tipReads raceS0 "A" "B" = some raceCtxB ∧
    tipReads raceS0 "A" "C" = some raceCtxC ∧
    (tipCommit raceS0 "A" "B" 8 none raceCtxB).2 = .ok () ∧
    (tipCommit raceS1 "A" "C" 8 none raceCtxC).2 = .ok () ∧
    balanceOf raceS2 "A" = -6 ∧
    ¬ balanceOf raceS2 "A" = 2 := by
  exact ⟨tip_creator_phased, rfl, rfl, rfl, rfl, rfl, by decide⟩

/-- C8: every successful purchase and tip appends exactly one ledger
record of the right shape with amount at least 1, and two successive
purchases of 50 append two records while raising the balance by 100. -/
theorem transaction_logging (s : DB) (uid f t : String) (a : Int)
    (p : Option String) :
    (∀ s2 b, purchase_tokens s uid a = (s2, .ok b) →
      s2.transactions = s.transactions ++ [purchaseRecord a] ∧ 1 ≤ a) ∧
    (∀ s2, tip_creator s f t a p = (s2, .ok ()) →
      s2.transactions = s.transactions ++ [tipRecord f t a p] ∧ 1 ≤ a) ∧
    ((runOps s [Op.purchase uid 50, Op.purchase uid 50]).transactions.length
        = s.transactions.length + 2 ∧
      balanceOf (runOps s [Op.purchase uid 50, Op.purchase uid 50]) uid
        = balanceOf s uid + 100) := by
  refine ⟨?_, ?_, ?_, ?_⟩
  · intro s2 b h
    by_cases h0 : a ≤ 0
    · rw [purchase_invalid h0] at h
      simp at h
    · have hfacts := @purchase_ok_facts s uid a h0
      have h1 : (purchase_tokens s uid a).1 = s2 := by rw [h]
      refine ⟨?_, by omega⟩
      rw [← h1]
      exact hfacts.2.2.1
  · intro s2 h
    rcases tip_cases s f t a p with ⟨-, h1⟩ | ⟨-, -, h1⟩ |
      ⟨fu, tu, -, -, -, -, h1⟩ | ⟨fu, tu, h0, hf, ht, hb, h1⟩
    · rw [h1] at h; simp at h
    · rw [h1] at h; simp at h
    · rw [h1] at h; simp at h
    · rw [h1] at h
      have h3 := congrArg (fun x : DB × Except ApiError Unit => x.1.transactions) h
      exact ⟨h3.symm, by omega⟩
  · have h0 : ¬ (50 : Int) ≤ 0 := by omega
    have f1 := @purchase_ok_facts s uid 50 h0
    have f2 := @purchase_ok_facts (purchase_tokens s uid 50).1 uid 50 h0
    show (purchase_tokens (purchase_tokens s uid 50).1 uid 50).1.transactions.length
      = s.transactions.length + 2
    rw [f2.2.2.1, f1.2.2.1]
    simp only [List.length_append, List.length_cons, List.length_nil]
  · have h0 : ¬ (50 : Int) ≤ 0 := by omega
    have f1 := @purchase_ok_facts s uid 50 h0
    have f2 := @purchase_ok_facts (purchase_tokens s uid 50).1 uid 50 h0
    show balanceOf (purchase_tokens (purchase_tokens s uid 50).1 uid 50).1 uid
      = balanceOf s uid + 100
    rw [f2.2.1, f1.2.1]
    omega

/-- C8 witness: logging facts evaluated on the demo store. -/
theorem transaction_logging_witness :
    (purchase_tokens demoDB "A" 50).1.transactions
        = demoDB.transactions ++ [purchaseRecord 50] ∧
    (tip_creator demoDB "A" "B" 4 (some "p1")).1.transactions
        = demoDB.transactions ++ [tipRecord "A" "B" 4 (some "p1")] ∧
    (runOps demoDB [Op.purchase "A" 50, Op.purchase "A" 50]).transactions.length
        = demoDB.transactions.length + 2 :=
  ⟨((transaction_logging demoDB "A" "A" "B" 50 none).1
      (purchase_tokens demoDB "A" 50).1 60 rfl).1,
   ((transaction_logging demoDB "A" "A" "B" 4 (some "p1")).2.1
      (tip_creator demoDB "A" "B" 4 (some "p1")).1 rfl).1,
   (transaction_logging demoDB "A" "A" "B" 50 none).2.2.1⟩

/-- C9: a self tip of n tokens from an existing account with balance at
least n succeeds, appends the tip record, and leaves every balance (in
particular the account's own) unchanged. -/
theorem self_tip_spec (s : DB) (uid : String) (n : Int) (p : Option String)
    (fu : UserDoc) (h1 : 1 ≤ n) (hfu : findUser s.users uid = some fu)
    (hbal : n ≤ fu.token_balance) :
    tip_creator s uid uid n p =
      ({ s with transactions := s.transactions ++ [tipRecord uid uid n p] },
       .ok ()) ∧
    balanceOf (tip_creator s uid uid n p).1 uid = balanceOf s uid := by
  have h := @tip_self_ok s uid n p fu h1 hfu hbal
  refine ⟨h, ?_⟩
  rw [h]
  rfl

/-- C9 witness: account A tips itself 5 of its 10 tokens. -/
theorem self_tip_spec_witness :
    tip_creator demoDB "A" "A" 5 none =
      ({ demoDB with
           transactions := demoDB.transactions ++ [tipRecord "A" "A" 5 none] },
       .ok ()) ∧
    balanceOf (tip_creator demoDB "A" "A" 5 none).1 "A" = balanceOf demoDB "A" :=
  self_tip_spec demoDB "A" 5 none (mkUser "A" 10) (by decide) (by decide)
    (by decide)

/-- C10: the moderation filter accepts absent and empty text, flags text
exactly when a blocked keyword occurs in its lowercasing, and
`moderate_post` rejects (storing nothing) exactly when title or body
violates the policy, storing the post otherwise. -/
theorem moderation_spec :
    violates_policy none = false ∧
    violates_policy (some []) = false ∧
    (∀ t : List Char, violates_policy (some t) = true ↔
      ∃ k ∈ BLOCKED_KEYWORDS, k <:+: t.map Char.toLower) ∧
    (∀ (s : DB) (post : PostDoc),
      (violates_policy (some post.title) || violates_policy post.body_text) = true →
      moderate_post s post = (s, .error .PolicyViolation)) ∧
    (∀ (s : DB) (post : PostDoc),
      (violates_policy (some post.title) || violates_policy post.body_text) = false →
      moderate_post s post = ({ s with posts := s.posts ++ [post] }, .ok ())) :=
  ⟨rfl, rfl, violates_policy_iff, fun _ _ h => moderate_reject h,
   fun _ _ h => moderate_accept h⟩

/-- C10 witness: a flagged title is rejected, a clean post is stored, and
an uppercase keyword is still caught. -/
theorem moderation_spec_witness :
    moderate_post demoDB badPost = (demoDB, .error .PolicyViolation) ∧
    moderate_post demoDB goodPost =
      ({ demoDB with posts := demoDB.posts ++ [goodPost] }, .ok ()) ∧
    violates_policy (some "NSFW warning".toList) = true :=
  ⟨moderation_spec.2.2.2.1 demoDB badPost (by decide),
   moderation_spec.2.2.2.2 demoDB goodPost (by decide),
   (moderation_spec.2.2.1 "NSFW warning".toList).mpr
     ⟨"nsfw".toList, by decide, [], " warning".toList, by decide⟩⟩

end CreatorPlatform
